import Mathlib

/-!
# Verification of the Eva availability engine

Shallow embedding of the core scheduling logic of the `eva` repository:

* `CheckAvailabilityTool._find_free_slots` (src/eva_assistant/tools/calendar.py,
  lines 1079-1155): free-slot synthesis between busy periods;
* the busy-interval aggregation loop of `CheckAvailabilityTool.run_with_context`
  (calendar.py, lines 894-1040);
* `normalize_datetime_for_google_api`, `convert_datetime_to_user_timezone`,
  `convert_datetime_from_user_timezone` (calendar.py, lines 25-155);
* `UserAuthManager` profile / timezone / email-mapping operations
  (src/eva_assistant/auth/user_auth.py).

Instants are modelled as integers (minutes); `datetime` / `timedelta`
arithmetic on parsed instants is integer arithmetic on this scale.
Python lists become `List`, dicts become association lists, and a function
that may raise is modelled with an `Option`/`Except` result.
-/

namespace Eva

/-- A free slot as produced by `_find_free_slots`: the Python dict
`{'start': ..., 'end': ..., 'duration_minutes': ...}` with the two
instants in minutes. -/
structure FreeSlot where
  start : Int
  «end» : Int
  duration_minutes : Int
  deriving DecidableEq, Repr

/-- A busy period as accumulated by `run_with_context` (calendar.py line 952):
start/end instants plus the source event title and calendar id.  The
`start_utc`/`end_utc`/`timezone` fields of the Python dict are renderings of
the same two instants and are not duplicated here. -/
structure BusyTime where
  start : Int
  «end» : Int
  title : String
  calendar : String
  deriving DecidableEq, Repr

/-- The slot-emitting `while` loop of `_find_free_slots` (calendar.py lines
1107-1120 and 1132-1142):

    while current_time + duration <= bound and len(free_slots) < max_suggestions:
        emit [current_time, current_time + duration); current_time += duration

Each iteration appends exactly one slot and the guard requires
`len(free_slots) < max_suggestions`, so the loop runs at most
`max_suggestions - len(free_slots)` times; `budget` is that number of
remaining iterations and the function returns the newly emitted slots
together with the final cursor. -/
def emitSlots (duration bound : Int) : Nat → Int → List FreeSlot × Int
  | 0, current_time => ([], current_time)
  | budget + 1, current_time =>
      if current_time + duration ≤ bound then
        (⟨current_time, current_time + duration, duration⟩ ::
            (emitSlots duration bound budget (current_time + duration)).1,
          (emitSlots duration bound budget (current_time + duration)).2)
      else ([], current_time)

/-- The `for busy in busy_times` loop of `_find_free_slots` (calendar.py lines
1102-1128): before each busy period emit back-to-back slots up to
`busy['start']`, break out once `max_suggestions` slots exist, otherwise
advance the cursor to `max(current_time, busy['end'])`. -/
def processBusy (duration : Int) (max_suggestions : Int) :
    List BusyTime → Int → List FreeSlot → Int × List FreeSlot
  | [], current_time, free_slots => (current_time, free_slots)
  | busy :: rest, current_time, free_slots =>
      let emitted := emitSlots duration busy.start
        (max_suggestions - free_slots.length).toNat current_time
      let free_slots1 := free_slots ++ emitted.1
      if max_suggestions ≤ free_slots1.length then (emitted.2, free_slots1)
      else processBusy duration max_suggestions rest
        (max emitted.2 busy.«end») free_slots1

/-- `CheckAvailabilityTool._find_free_slots` (calendar.py lines 1079-1149):
sort the busy periods by start (line 1096; Python's stable sort is modelled
by insertion sort on the start key), walk them emitting free slots before
each one, then keep emitting until `end_time` or `max_suggestions`. -/
def _find_free_slots (start_time end_time : Int) (duration_minutes : Int)
    (busy_times : List BusyTime) (max_suggestions : Int) : List FreeSlot :=
  let sorted := List.insertionSort (fun a b => a.start ≤ b.start) busy_times
  let looped := processBusy duration_minutes max_suggestions sorted start_time []
  looped.2 ++ (emitSlots duration_minutes end_time
    (max_suggestions - looped.2.length).toNat looped.1).1

/-- A returned free slot overlaps a busy interval when their interiors
intersect. -/
def overlaps (s : FreeSlot) (b : BusyTime) : Prop :=
  b.start < s.«end» ∧ s.start < b.«end»

instance (s : FreeSlot) (b : BusyTime) : Decidable (overlaps s b) := by
  unfold overlaps; infer_instance

/-- C3: Scenario B of the spec.  Window 09:00-17:00 (minutes 540-1020), one
busy interval 12:00-13:00 (720-780), duration 60, max 10: exactly the seven
back-to-back hourly slots, skipping 12:00-13:00. -/
theorem find_free_slots_scenario_b :
    _find_free_slots 540 1020 60 [⟨720, 780, "Lunch", "primary"⟩] 10 =
      [⟨540, 600, 60⟩, ⟨600, 660, 60⟩, ⟨660, 720, 60⟩,
       ⟨780, 840, 60⟩, ⟨840, 900, 60⟩, ⟨900, 960, 60⟩, ⟨960, 1020, 60⟩] ∧
    ∀ s ∈ _find_free_slots 540 1020 60 [⟨720, 780, "Lunch", "primary"⟩] 10,
      ¬ overlaps s ⟨720, 780, "Lunch", "primary"⟩ := by
  constructor
  · decide
  · decide

/-! ## Helper lemmas about the synthesizer loops -/

theorem emitSlots_fst_length (duration bound : Int) :
    ∀ (budget : Nat) (cur : Int),
      (emitSlots duration bound budget cur).1.length ≤ budget := by
  intro budget
  induction budget with
  | zero => intro cur; simp [emitSlots]
  | succ n ih =>
      intro cur
      simp only [emitSlots]
      split
      · simpa using ih (cur + duration)
      · simp

theorem emitSlots_cursor_le (duration bound : Int) (hd : 0 ≤ duration) :
    ∀ (budget : Nat) (cur : Int), cur ≤ (emitSlots duration bound budget cur).2 := by
  intro budget
  induction budget with
  | zero => intro cur; simp [emitSlots]
  | succ n ih =>
      intro cur
      simp only [emitSlots]
      split
      · exact le_trans (by omega) (ih (cur + duration))
      · simp

theorem emitSlots_mem (duration bound : Int) (hd : 0 ≤ duration) :
    ∀ (budget : Nat) (cur : Int),
      ∀ s ∈ (emitSlots duration bound budget cur).1,
        cur ≤ s.start ∧ s.«end» ≤ bound ∧ s.«end» = s.start + duration := by
  intro budget
  induction budget with
  | zero => intro cur s hs; simp [emitSlots] at hs
  | succ n ih =>
      intro cur s hs
      simp only [emitSlots] at hs
      split at hs
      · rcases List.mem_cons.mp hs with h | h
        · subst h
          refine ⟨le_refl _, by assumption, rfl⟩
        · rcases ih (cur + duration) s h with ⟨h1, h2, h3⟩
          exact ⟨le_trans (by omega) h1, h2, h3⟩
      · simp at hs

theorem emitSlots_zero_duration (bound : Int) :
    ∀ (budget : Nat) (cur : Int), cur ≤ bound →
      emitSlots 0 bound budget cur = (List.replicate budget ⟨cur, cur, 0⟩, cur) := by
  intro budget
  induction budget with
  | zero => intro cur _; simp [emitSlots]
  | succ n ih =>
      intro cur hcur
      simp only [emitSlots]
      rw [if_pos (by omega)]
      simp only [add_zero]
      rw [ih cur hcur]
      simp [List.replicate_succ]

theorem processBusy_snd_length (duration m : Int) :
    ∀ (busy : List BusyTime) (cur : Int) (fs : List FreeSlot),
      fs.length ≤ m.toNat → (processBusy duration m busy cur fs).2.length ≤ m.toNat := by
  intro busy
  induction busy with
  | nil => intro cur fs h; simpa [processBusy] using h
  | cons b rest ih =>
      intro cur fs h
      simp only [processBusy]
      have hemit := emitSlots_fst_length duration b.start
        (m - (fs.length : Int)).toNat cur
      split
      · simp only [List.length_append]
        omega
      · exact ih _ _ (by simp only [List.length_append]; omega)

theorem processBusy_cursor_le (duration m : Int) (hd : 0 ≤ duration) :
    ∀ (busy : List BusyTime) (cur : Int) (fs : List FreeSlot),
      cur ≤ (processBusy duration m busy cur fs).1 := by
  intro busy
  induction busy with
  | nil => intro cur fs; simp [processBusy]
  | cons b rest ih =>
      intro cur fs
      simp only [processBusy]
      have hcur := emitSlots_cursor_le duration b.start hd
        (m - (fs.length : Int)).toNat cur
      split
      · exact hcur
      · exact le_trans (le_trans hcur (le_max_left _ _)) (ih _ _)

theorem processBusy_mem (duration m : Int) (hd : 0 ≤ duration) :
    ∀ (busy : List BusyTime),
      List.Pairwise (fun a b : BusyTime => a.start ≤ b.start) busy →
      ∀ (cur : Int) (fs : List FreeSlot),
        ∀ s ∈ (processBusy duration m busy cur fs).2,
          s ∈ fs ∨ (cur ≤ s.start ∧ ∀ b ∈ busy, ¬ overlaps s b) := by
  intro busy
  induction busy with
  | nil => intro _ cur fs s hs; exact Or.inl (by simpa [processBusy] using hs)
  | cons b rest ih =>
      intro hpair cur fs s hs
      have hhead : ∀ b2 ∈ rest, b.start ≤ b2.start := (List.pairwise_cons.mp hpair).1
      have htail := (List.pairwise_cons.mp hpair).2
      have hemitmem := emitSlots_mem duration b.start hd
        (m - (fs.length : Int)).toNat cur
      have hemitcur := emitSlots_cursor_le duration b.start hd
        (m - (fs.length : Int)).toNat cur
      simp only [processBusy] at hs
      -- a slot emitted before `b` ends no later than `b.start`, hence cannot
      -- overlap `b` nor any later (sorted) busy interval
      have hnew : ∀ t ∈ (emitSlots duration b.start
            (m - (fs.length : Int)).toNat cur).1,
          cur ≤ t.start ∧ ∀ b2 ∈ b :: rest, ¬ overlaps t b2 := by
        intro t ht
        rcases hemitmem t ht with ⟨h1, h2, _⟩
        refine ⟨h1, ?_⟩
        intro b2 hb2 hov
        rcases List.mem_cons.mp hb2 with h | h
        · subst h; exact absurd hov.1 (by omega)
        · exact absurd hov.1 (by have := hhead b2 h; omega)
      split at hs
      · rcases List.mem_append.mp hs with h | h
        · exact Or.inl h
        · exact Or.inr (hnew s h)
      · rcases ih htail _ _ s hs with h | ⟨h1, h2⟩
        · rcases List.mem_append.mp h with h | h
          · exact Or.inl h
          · exact Or.inr (hnew s h)
        · refine Or.inr ⟨le_trans (le_trans hemitcur (le_max_left _ _)) h1, ?_⟩
          intro b2 hb2 hov
          rcases List.mem_cons.mp hb2 with h | h
          · subst h
            exact absurd hov.2 (by have := le_trans (le_max_right _ _) h1; omega)
          · exact h2 b2 h hov

theorem processBusy_final (duration m : Int) (hd : 0 ≤ duration) :
    ∀ (busy : List BusyTime) (cur : Int) (fs : List FreeSlot),
      (∀ b ∈ busy, b.«end» ≤ (processBusy duration m busy cur fs).1) ∨
        m ≤ ((processBusy duration m busy cur fs).2.length : Int) := by
  intro busy
  induction busy with
  | nil => intro cur fs; left; intro b hb; simp at hb
  | cons b rest ih =>
      intro cur fs
      simp only [processBusy]
      split
      · right
        assumption
      · rcases ih (max (emitSlots duration b.start
            (m - (fs.length : Int)).toNat cur).2 b.«end»)
            (fs ++ (emitSlots duration b.start
              (m - (fs.length : Int)).toNat cur).1) with h | h
        · left
          intro b2 hb2
          rcases List.mem_cons.mp hb2 with h2 | h2
          · subst h2
            exact le_trans (le_max_right _ _) (processBusy_cursor_le duration m hd _ _ _)
          · exact h b2 h2
        · right
          exact h

instance : IsTotal BusyTime (fun a b => a.start ≤ b.start) :=
  ⟨fun a b => le_total a.start b.start⟩

instance : IsTrans BusyTime (fun a b => a.start ≤ b.start) :=
  ⟨fun _ _ _ h1 h2 => le_trans h1 h2⟩

/-- C2: no returned free slot overlaps any input busy interval — for every
window, positive duration, positive suggestion cap, and arbitrary busy list
(overlapping or contained intervals, any order) — and the cursor rule
`current_time = max(current_time, busy_end)` never moves the cursor backward
(the loop's final cursor is at least its initial cursor). -/
theorem find_free_slots_no_overlap (start_time end_time duration : Int)
    (busy_times : List BusyTime) (max_suggestions : Int)
    (hdur : 0 < duration) (hmax : 0 < max_suggestions) :
    (∀ s ∈ _find_free_slots start_time end_time duration busy_times max_suggestions,
        ∀ b ∈ busy_times, ¬ overlaps s b) ∧
      ∀ (cur : Int) (fs : List FreeSlot),
        cur ≤ (processBusy duration max_suggestions
            (List.insertionSort (fun a b => a.start ≤ b.start) busy_times) cur fs).1 := by
  have hd : 0 ≤ duration := le_of_lt hdur
  have hsorted : List.Pairwise (fun a b : BusyTime => a.start ≤ b.start)
      (List.insertionSort (fun a b => a.start ≤ b.start) busy_times) :=
    List.sorted_insertionSort _ busy_times
  constructor
  · intro s hs b hb
    have hbs : b ∈ List.insertionSort
        (fun a b : BusyTime => a.start ≤ b.start) busy_times :=
      (List.perm_insertionSort _ busy_times).mem_iff.mpr hb
    simp only [_find_free_slots] at hs
    rcases List.mem_append.mp hs with h | h
    · rcases processBusy_mem duration max_suggestions hd _ hsorted
          start_time [] s h with h0 | ⟨_, h2⟩
      · simp at h0
      · exact h2 b hbs
    · rcases emitSlots_mem duration end_time hd _ _ s h with ⟨h1, _, _⟩
      rcases processBusy_final duration max_suggestions hd
          (List.insertionSort (fun a b => a.start ≤ b.start) busy_times)
          start_time [] with hall | hfull
      · have hbe := hall b hbs
        exact fun hov => absurd hov.2 (by omega)
      · have hb0 : (max_suggestions - (((processBusy duration max_suggestions
            (List.insertionSort (fun a b => a.start ≤ b.start) busy_times)
            start_time []).2).length : Int)).toNat = 0 := by omega
        rw [hb0] at h
        simp [emitSlots] at h
  · intro cur fs
    exact processBusy_cursor_le duration max_suggestions hd _ cur fs

theorem find_free_slots_no_overlap_witness :
    (0 : Int) < 60 ∧ (0 : Int) < 10 ∧
      ∀ s ∈ _find_free_slots 540 1020 60
          [⟨720, 780, "B", "c2"⟩, ⟨700, 790, "A", "c1"⟩] 10,
        ∀ b ∈ ([⟨720, 780, "B", "c2"⟩, ⟨700, 790, "A", "c1"⟩] : List BusyTime),
          ¬ overlaps s b :=
  ⟨by decide, by decide,
    (find_free_slots_no_overlap 540 1020 60
      [⟨720, 780, "B", "c2"⟩, ⟨700, 790, "A", "c1"⟩] 10
      (by decide) (by decide)).1⟩

/-- C10: `_find_free_slots` always returns at most `max_suggestions` slots —
every emitting loop is bounded by `len(free_slots) < max_suggestions`, for
zero and negative durations included — and in the degenerate case
duration = 0 (cursor never advances) on a busy-free window it returns exactly
`max_suggestions` identical zero-length slots instead of looping forever. -/
theorem find_free_slots_bounded (start_time end_time duration : Int)
    (busy_times : List BusyTime) (max_suggestions : Int) :
    (_find_free_slots start_time end_time duration busy_times
        max_suggestions).length ≤ max_suggestions.toNat ∧
      (duration = 0 → busy_times = [] → start_time ≤ end_time →
        _find_free_slots start_time end_time duration busy_times max_suggestions =
          List.replicate max_suggestions.toNat ⟨start_time, start_time, 0⟩) := by
  constructor
  · simp only [_find_free_slots, List.length_append]
    have h2 := processBusy_snd_length duration max_suggestions
      (List.insertionSort (fun a b => a.start ≤ b.start) busy_times)
      start_time [] (by simp)
    have h3 := emitSlots_fst_length duration end_time
      (max_suggestions - (((processBusy duration max_suggestions
        (List.insertionSort (fun a b => a.start ≤ b.start) busy_times)
        start_time []).2).length : Int)).toNat
      ((processBusy duration max_suggestions
        (List.insertionSort (fun a b => a.start ≤ b.start) busy_times)
        start_time []).1)
    omega
  · intro h0 hbe hle
    subst h0
    subst hbe
    simp only [_find_free_slots, List.insertionSort, processBusy]
    rw [emitSlots_zero_duration end_time _ start_time hle]
    simp

theorem find_free_slots_bounded_witness :
    (_find_free_slots 540 1020 0 [] 3).length ≤ (3 : Int).toNat ∧
      _find_free_slots 540 1020 0 [] 3 =
        List.replicate (3 : Int).toNat ⟨540, 540, 0⟩ :=
  ⟨(find_free_slots_bounded 540 1020 0 [] 3).1,
    (find_free_slots_bounded 540 1020 0 [] 3).2 rfl rfl (by decide)⟩

/-! ## Timezone conversion layer (calendar.py lines 86-155)

A parsed datetime string is a wall-clock reading (in minutes) that either
carries an explicit UTC offset or is naive.  `dateutil.parser.parse` maps a
well-formed string to such a value; `isoformat` maps it back, losslessly for
our purposes, so the two functions are embedded directly on parsed values.
A `pytz` timezone is abstracted by the offsets it assigns: `offsetAt` is the
UTC offset `astimezone` attaches at a given absolute instant, `offsetOfWall`
the offset `localize` chooses for a naive wall-clock reading. -/

/-- A parsed datetime: wall-clock minutes, with or without a UTC offset. -/
inductive ParsedDT where
  | naive (wall : Int)
  | aware (wall : Int) (offset : Int)
  deriving DecidableEq, Repr

/-- Abstraction of a named IANA timezone as used by `pytz`. -/
structure TimezoneModel where
  offsetAt : Int → Int
  offsetOfWall : Int → Int

/-- The absolute UTC instant denoted by a parsed datetime, reading a naive
value as UTC (the convention of `convert_datetime_to_user_timezone`). -/
def utcInstant : ParsedDT → Int
  | .naive wall => wall
  | .aware wall offset => wall - offset

/-- `convert_datetime_to_user_timezone` (calendar.py lines 86-119): parse,
assume UTC when naive, `astimezone(user_tz)`, return with that zone's
offset. -/
def convert_datetime_to_user_timezone (dt : ParsedDT) (user_tz : TimezoneModel) :
    ParsedDT :=
  let instant := utcInstant dt
  .aware (instant + user_tz.offsetAt instant) (user_tz.offsetAt instant)

/-- `convert_datetime_from_user_timezone` (calendar.py lines 122-155): parse;
an explicit offset wins, a naive value is `localize`d into the user's zone;
then `astimezone(pytz.UTC)` and the result is rendered with suffix `Z`
(offset 0). -/
def convert_datetime_from_user_timezone (dt : ParsedDT) (user_tz : TimezoneModel) :
    ParsedDT :=
  let instant :=
    match dt with
    | .naive wall => wall - user_tz.offsetOfWall wall
    | .aware wall offset => wall - offset
  .aware instant 0

/-- C5: round-trip — converting any instant into a user timezone and back to
UTC yields the same instant (naive inputs read as UTC). -/
theorem timezone_round_trip (t : ParsedDT) (z : TimezoneModel) :
    utcInstant (convert_datetime_from_user_timezone
        (convert_datetime_to_user_timezone t z) z) = utcInstant t := by
  cases t with
  | naive wall =>
      simp [convert_datetime_to_user_timezone,
        convert_datetime_from_user_timezone, utcInstant]
  | aware wall offset =>
      simp [convert_datetime_to_user_timezone,
        convert_datetime_from_user_timezone, utcInstant]

/-! ## `normalize_datetime_for_google_api` (calendar.py lines 25-83)

Python strings are embedded as `List Char`, with the string operations the
function uses implemented on that representation.  Validation by
`datetime.fromisoformat` and the `utcnow()` fallback are external inputs and
appear as parameters (`parse_ok` applied to the candidate string models
`fromisoformat(candidate.replace('Z', '+00:00'))` succeeding; `now_iso` is
`datetime.utcnow().isoformat()`). -/

/-- Python `str.strip()`: drop leading and trailing whitespace. -/
def pyStrip (s : List Char) : List Char :=
  ((s.dropWhile Char.isWhitespace).reverse.dropWhile Char.isWhitespace).reverse

/-- The characters after the last occurrence of `c`, i.e. Python
`s.split(c)[-1]` (when `c` does not occur this is all of `s`, matching
`split`, though the caller guards on `c in s`). -/
def afterLastSplit (c : Char) (s : List Char) : List Char :=
  (s.reverse.takeWhile (fun x => x ≠ c)).reverse

/-- The timezone test of `normalize_datetime_for_google_api` (calendar.py
lines 48-50): ends with `'Z'`, or contains `'+'` with at least two characters
after the last `'+'`, or has at least three `'-'` characters. -/
def has_timezone (s : List Char) : Bool :=
  decide (s.getLast? = some 'Z') ||
    (s.contains '+' && decide (2 ≤ (afterLastSplit '+' s).length)) ||
    decide (3 ≤ s.count '-')

/-- `normalize_datetime_for_google_api` (calendar.py lines 25-83): strip the
input; pass through if it already has timezone info; otherwise replace a
space separator by `'T'`, insert `'T'` or append a default midnight time,
suffix `'Z'`, and fall back to the current time when the result does not
parse. -/
def normalize_datetime_for_google_api (parse_ok : List Char → Bool)
    (now_iso : List Char) (dt_string : List Char) : List Char :=
  let s1 := pyStrip dt_string
  if has_timezone s1 then s1
  else
    let s2 := if s1.contains ' ' && !s1.contains 'T' then
        s1.map (fun ch => if ch = ' ' then 'T' else ch)
      else s1
    let s3 :=
      if !s2.contains 'T' && 10 < s2.length then
        if 16 ≤ s2.length then s2.take 10 ++ 'T' :: s2.drop 11 else s2
      else if !s2.contains 'T' && s2.length ≤ 10 then
        s2 ++ ('T' :: "00:00:00".toList)
      else s2
    let s4 := s3 ++ ['Z']
    if parse_ok s4 then s4 else now_iso ++ ['Z']

/-- The claim-side reading of "contains a `'+HH:MM'` offset": the string ends
with `'+'` followed by two digits, `':'`, and two digits. -/
def endsWithPlusOffset (s : List Char) : Prop :=
  ∃ pre h1 h2 m1 m2, h1.isDigit ∧ h2.isDigit ∧ m1.isDigit ∧ m2.isDigit ∧
    s = pre ++ ['+', h1, h2, ':', m1, m2]

theorem digit_ne_plus {c : Char} (h : c.isDigit) : c ≠ '+' := by
  intro he
  subst he
  simp [Char.isDigit] at h

theorem endsWithPlusOffset_has_timezone {s : List Char}
    (h : endsWithPlusOffset s) : has_timezone s = true := by
  rcases h with ⟨pre, h1, h2, m1, m2, hd1, hd2, hd3, hd4, hs⟩
  subst hs
  have hplus : ('+' ∈ (pre ++ ['+', h1, h2, ':', m1, m2])) := by
    simp
  have hafter : afterLastSplit '+' (pre ++ ['+', h1, h2, ':', m1, m2]) =
      [h1, h2, ':', m1, m2] := by
    simp only [afterLastSplit, List.reverse_append, List.reverse_cons,
      List.reverse_nil]
    rw [show ([] ++ [m2] ++ [m1] ++ [':'] ++ [h2] ++ [h1] ++ ['+']) ++ pre.reverse
        = m2 :: m1 :: ':' :: h2 :: h1 :: '+' :: pre.reverse by simp]
    rw [List.takeWhile_cons_of_pos (by simpa using digit_ne_plus hd4),
      List.takeWhile_cons_of_pos (by simpa using digit_ne_plus hd3),
      List.takeWhile_cons_of_pos (by decide),
      List.takeWhile_cons_of_pos (by simpa using digit_ne_plus hd2),
      List.takeWhile_cons_of_pos (by simpa using digit_ne_plus hd1),
      List.takeWhile_cons_of_neg (by simp)]
    simp
  simp only [has_timezone, hafter]
  have : (pre ++ ['+', h1, h2, ':', m1, m2]).contains '+' = true := by
    simpa [List.contains_eq_any_beq, List.any_eq_true] using
      ⟨'+', hplus, by simp⟩
  simp [this]

/-- C9 (amended): an input which, once stripped of surrounding whitespace,
ends in `'Z'`, ends with a `'+HH:MM'` offset, or contains more than two `'-'`
characters, is treated as already timezone-qualified and returned in stripped
form — in particular unchanged whenever it carries no surrounding whitespace —
with no reformatting and no fallback. -/
theorem normalize_passthrough_trimmed (parse_ok : List Char → Bool)
    (now_iso dt_string : List Char)
    (h : (pyStrip dt_string).getLast? = some 'Z' ∨
      endsWithPlusOffset (pyStrip dt_string) ∨
      3 ≤ (pyStrip dt_string).count '-') :
    normalize_datetime_for_google_api parse_ok now_iso dt_string =
        pyStrip dt_string ∧
      (pyStrip dt_string = dt_string →
        normalize_datetime_for_google_api parse_ok now_iso dt_string = dt_string) := by
  have htz : has_timezone (pyStrip dt_string) = true := by
    rcases h with h | h | h
    · simp [has_timezone, h]
    · exact endsWithPlusOffset_has_timezone h
    · simp [has_timezone, h]
  have hmain : normalize_datetime_for_google_api parse_ok now_iso dt_string =
      pyStrip dt_string := by
    simp [normalize_datetime_for_google_api, htz]
  exact ⟨hmain, fun he => by rw [hmain, he]⟩

theorem normalize_passthrough_trimmed_witness :
    (("2025-01-23T09:00:00Z".toList.getLast? = some 'Z' ∨
        endsWithPlusOffset "2025-01-23T09:00:00Z".toList ∨
        3 ≤ "2025-01-23T09:00:00Z".toList.count '-') ∧
      normalize_datetime_for_google_api (fun _ => true) "2025-01-01T00:00:00".toList
          "2025-01-23T09:00:00Z".toList = "2025-01-23T09:00:00Z".toList) := by
  have hstrip : pyStrip "2025-01-23T09:00:00Z".toList =
      "2025-01-23T09:00:00Z".toList := by decide
  refine ⟨Or.inl (by decide), ?_⟩
  exact (normalize_passthrough_trimmed (fun _ => true)
      "2025-01-01T00:00:00".toList "2025-01-23T09:00:00Z".toList
      (by rw [hstrip]; exact Or.inl (by decide))).2 hstrip

/-- C9 counterexample: an input that ends in `'Z'` but carries a leading
space is not returned unchanged — the function strips it first. -/
theorem normalize_strips_whitespace :
    normalize_datetime_for_google_api (fun _ => true)
          "2025-01-01T00:00:00".toList " 2025-01-23T09:00:00Z".toList =
        "2025-01-23T09:00:00Z".toList ∧
      " 2025-01-23T09:00:00Z".toList.getLast? = some 'Z' ∧
      "2025-01-23T09:00:00Z".toList ≠ " 2025-01-23T09:00:00Z".toList := by
  refine ⟨?_, by decide, by decide⟩
  decide

/-! ## Working-hours profile store (`UserAuthManager`, user_auth.py)

Per-user persistence is one JSON record behind `_get_user_profile_file`; a
read can find no file, an unreadable file (`json.load` raises), or a record.
JSON objects become structures whose `Option` fields mark absent keys, and
dict-valued working hours become association lists (Python dicts preserve
insertion order). -/

/-- One weekday entry `{'enabled': ..., 'start': ..., 'end': ...}`. -/
structure DayHours where
  enabled : Bool
  start : String
  «end» : String
  deriving DecidableEq, Repr

/-- The `default_profile['working_hours']` literal of `get_user_profile`
(user_auth.py lines 1371-1379): Mon-Fri 09:00-17:00 enabled, Sat/Sun
disabled. -/
def default_working_hours : List (String × DayHours) :=
  [("monday", ⟨true, "09:00", "17:00"⟩),
   ("tuesday", ⟨true, "09:00", "17:00"⟩),
   ("wednesday", ⟨true, "09:00", "17:00"⟩),
   ("thursday", ⟨true, "09:00", "17:00"⟩),
   ("friday", ⟨true, "09:00", "17:00"⟩),
   ("saturday", ⟨false, "09:00", "17:00"⟩),
   ("sunday", ⟨false, "09:00", "17:00"⟩)]

/-- A persisted profile record; `none` marks an absent key.  For the name
fields an absent key and a stored JSON `null` coincide because the default
value is `null` too. -/
structure StoredProfile where
  user_id : Option String := none
  first_name : Option String := none
  last_name : Option String := none
  display_name : Option String := none
  email : Option String := none
  timezone : Option String := none
  created_at : Option String := none
  updated_at : Option String := none
  working_hours : Option (List (String × DayHours)) := none
  deriving DecidableEq, Repr

/-- What a read of the profile file can observe. -/
inductive ProfileState where
  | missing
  | unreadable
  | record (data : StoredProfile)
  deriving DecidableEq, Repr

/-- The complete profile returned by `get_user_profile`. -/
structure UserProfile where
  user_id : String
  first_name : Option String
  last_name : Option String
  display_name : Option String
  email : Option String
  timezone : String
  created_at : String
  updated_at : String
  working_hours : List (String × DayHours)
  deriving DecidableEq, Repr

/-- The per-day backfill loop of `get_user_profile` (user_auth.py lines
1396-1399): for each default weekday not present in the stored dict, add the
default entry. -/
def backfillDays (wh : List (String × DayHours)) : List (String × DayHours) :=
  default_working_hours.foldl
    (fun acc day => if (acc.lookup day.1).isSome then acc else acc ++ [day]) wh

/-- `UserAuthManager.get_user_profile` (user_auth.py lines 1349-1405): a
missing or unreadable file yields the default profile; otherwise the record
is merged over the defaults (`{**default_profile, **profile_data}`) and the
working-hours dict is completed day by day. -/
def get_user_profile (now user_id : String) (st : ProfileState) : UserProfile :=
  let dflt : UserProfile :=
    { user_id := user_id, first_name := none, last_name := none,
      display_name := none, email := none, timezone := "UTC",
      created_at := now, updated_at := now,
      working_hours := default_working_hours }
  match st with
  | .missing => dflt
  | .unreadable => dflt
  | .record data =>
      { user_id := data.user_id.getD user_id,
        first_name := data.first_name,
        last_name := data.last_name,
        display_name := data.display_name,
        email := data.email,
        timezone := data.timezone.getD "UTC",
        created_at := data.created_at.getD now,
        updated_at := data.updated_at.getD now,
        working_hours :=
          match data.working_hours with
          | none => default_working_hours
          | some wh => backfillDays wh }

/-- The stored record has no entry for `day` (or no working-hours dict, or no
record at all). -/
def storedDayMissing (st : ProfileState) (day : String) : Prop :=
  match st with
  | .record data =>
      match data.working_hours with
      | some wh => wh.lookup day = none
      | none => True
  | _ => True

/-- The stored record carries no timezone key (or there is no record). -/
def storedTimezoneMissing (st : ProfileState) : Prop :=
  match st with
  | .record data => data.timezone = none
  | _ => True

theorem lookup_append_left {α β : Type} [BEq α] [LawfulBEq α]
    {l1 l2 : List (α × β)} {k : α}
    (h : (l1.lookup k).isSome) : (l1 ++ l2).lookup k = l1.lookup k := by
  rw [List.lookup_append]
  rcases hx : l1.lookup k with _ | v
  · rw [hx] at h; simp at h
  · simp

theorem backfill_foldl_preserve :
    ∀ (ds acc : List (String × DayHours)) (k : String),
      (acc.lookup k).isSome →
      (ds.foldl (fun acc day =>
          if (acc.lookup day.1).isSome then acc else acc ++ [day]) acc).lookup k
        = acc.lookup k := by
  intro ds
  induction ds with
  | nil => intro acc k _; rfl
  | cons d rest ih =>
      intro acc k h
      simp only [List.foldl_cons]
      split
      · exact ih acc k h
      · rw [ih _ k (by rw [lookup_append_left h]; exact h)]
        exact lookup_append_left h

theorem backfill_foldl_isSome :
    ∀ (ds acc : List (String × DayHours)) (k : String) (v : DayHours),
      (k, v) ∈ ds →
      ((ds.foldl (fun acc day =>
          if (acc.lookup day.1).isSome then acc else acc ++ [day]) acc).lookup k).isSome := by
  intro ds
  induction ds with
  | nil => intro acc k v h; simp at h
  | cons d rest ih =>
      intro acc k v h
      rcases List.mem_cons.mp h with h | h
      · simp only [List.foldl_cons]
        split
        · next hacc =>
            rw [backfill_foldl_preserve rest acc k (by rw [← h] at hacc; exact hacc)]
            rw [← h] at hacc
            exact hacc
        · next hacc =>
            have hsome : ((acc ++ [d]).lookup k).isSome := by
              rw [List.lookup_append]
              rcases hx : acc.lookup k with _ | v2
              · subst h; simp
              · simp
            rw [backfill_foldl_preserve rest _ k hsome]
            exact hsome
      · simp only [List.foldl_cons]
        split
        · exact ih acc k v h
        · exact ih _ k v h

theorem backfill_foldl_default :
    ∀ (ds acc : List (String × DayHours)) (k : String) (v : DayHours),
      (k, v) ∈ ds → List.Pairwise (fun a b => a.1 ≠ b.1) ds →
      acc.lookup k = none →
      (ds.foldl (fun acc day =>
          if (acc.lookup day.1).isSome then acc else acc ++ [day]) acc).lookup k
        = some v := by
  intro ds
  induction ds with
  | nil => intro acc k v h _ _; simp at h
  | cons d rest ih =>
      intro acc k v h hpair hnone
      have hheads := (List.pairwise_cons.mp hpair).1
      have htail := (List.pairwise_cons.mp hpair).2
      rcases List.mem_cons.mp h with h | h
      · subst h
        simp only [List.foldl_cons]
        rw [if_neg (by simp [hnone])]
        have hsome : ((acc ++ [(k, v)]).lookup k) = some v := by
          rw [List.lookup_append, hnone]
          simp [List.lookup]
        rw [backfill_foldl_preserve rest _ k (by rw [hsome]; simp), hsome]
      · have hkd : k ≠ d.1 := fun he => (hheads (k, v) h) (by rw [he])
        simp only [List.foldl_cons]
        split
        · exact ih acc k v h htail hnone
        · refine ih _ k v h htail ?_
          rw [List.lookup_append, hnone]
          simp [List.lookup, beq_eq_false_iff_ne.mpr hkd]

/-- C4: `get_user_profile` is total over every persisted state (no record,
partial record, unreadable record) and the returned profile's working hours
contain every one of the seven weekdays; a day absent from the store is
backfilled with its default entry, and an absent timezone defaults to
`"UTC"`. -/
theorem get_user_profile_defaults (now user_id : String) (st : ProfileState)
    (day : String) (hrs : DayHours)
    (hday : (day, hrs) ∈ default_working_hours) :
    ((get_user_profile now user_id st).working_hours.lookup day).isSome = true ∧
      (storedDayMissing st day →
        (get_user_profile now user_id st).working_hours.lookup day = some hrs) ∧
      (storedTimezoneMissing st →
        (get_user_profile now user_id st).timezone = "UTC") := by
  have hdistinct : List.Pairwise (fun a b : String × DayHours => a.1 ≠ b.1)
      default_working_hours := by decide
  have hdefault : default_working_hours.lookup day = some hrs := by
    fin_cases hday <;> decide
  cases st with
  | missing =>
      refine ⟨by simp [get_user_profile, hdefault], fun _ => ?_, fun _ => rfl⟩
      simp [get_user_profile, hdefault]
  | unreadable =>
      refine ⟨by simp [get_user_profile, hdefault], fun _ => ?_, fun _ => rfl⟩
      simp [get_user_profile, hdefault]
  | record data =>
      rcases hwh : data.working_hours with _ | wh
      · refine ⟨?_, fun _ => ?_, fun htz => ?_⟩
        · simp [get_user_profile, hwh, hdefault]
        · simp [get_user_profile, hwh, hdefault]
        · simp only [storedTimezoneMissing] at htz
          simp [get_user_profile, htz]
      · refine ⟨?_, fun hmiss => ?_, fun htz => ?_⟩
        · simp only [get_user_profile, hwh]
          exact backfill_foldl_isSome default_working_hours wh day hrs hday
        · simp only [storedDayMissing, hwh] at hmiss
          simp only [get_user_profile, hwh]
          exact backfill_foldl_default default_working_hours wh day hrs hday
            hdistinct hmiss
        · simp only [storedTimezoneMissing] at htz
          simp [get_user_profile, htz]

/-- A concrete partial record: only a (modified) Monday entry, no timezone. -/
def examplePartialProfile : StoredProfile :=
  { working_hours := some [("monday", ⟨false, "10:00", "16:00"⟩)] }

theorem get_user_profile_defaults_witness :
    (("saturday", (⟨false, "09:00", "17:00"⟩ : DayHours)) ∈ default_working_hours) ∧
      ((get_user_profile "t0" "u1"
          (.record examplePartialProfile)).working_hours.lookup
          "saturday").isSome = true ∧
      (get_user_profile "t0" "u1"
          (.record examplePartialProfile)).working_hours.lookup
          "saturday" = some ⟨false, "09:00", "17:00"⟩ ∧
      (get_user_profile "t0" "u1"
          (.record examplePartialProfile)).timezone = "UTC" := by
  have h := get_user_profile_defaults "t0" "u1" (.record examplePartialProfile)
    "saturday" ⟨false, "09:00", "17:00"⟩ (by decide)
  exact ⟨by decide, h.1,
    h.2.1 (by simp [storedDayMissing, examplePartialProfile, List.lookup]),
    h.2.2 (by simp [storedTimezoneMissing, examplePartialProfile])⟩

/-- `UserAuthManager.get_user_timezone` (user_auth.py lines 1271-1296): no
file or unreadable file defaults to `"UTC"`, else
`profile_data.get('timezone', 'UTC')`. -/
def get_user_timezone (st : ProfileState) : String :=
  match st with
  | .record data => data.timezone.getD "UTC"
  | _ => "UTC"

/-- `UserAuthManager.set_user_timezone` (user_auth.py lines 1298-1347):
validate the zone name first (`pytz.timezone` raising means invalid) and
return `False` without touching the file; otherwise load the existing record
(an unreadable one degrades to `{}`), update `user_id`/`timezone`/
`updated_at`, and write.  The write is modelled as succeeding; `is_valid_tz`
models membership in the IANA database. -/
def set_user_timezone (is_valid_tz : String → Bool) (now user_id timezone : String)
    (st : ProfileState) : Bool × ProfileState :=
  if is_valid_tz timezone then
    let base : StoredProfile :=
      match st with
      | .record data => data
      | _ => {}
    (true, .record { base with user_id := some user_id, timezone := some timezone, updated_at := some now })
  else (false, st)

/-- C6: for an invalid timezone name, `set_user_timezone` reports failure and
writes nothing — the persisted state is unchanged, so a subsequent
`get_user_timezone` answers exactly as before the call. -/
theorem set_user_timezone_invalid_noop (is_valid_tz : String → Bool)
    (now user_id timezone : String) (st : ProfileState)
    (hinvalid : is_valid_tz timezone = false) :
    set_user_timezone is_valid_tz now user_id timezone st = (false, st) ∧
      get_user_timezone
          (set_user_timezone is_valid_tz now user_id timezone st).2 =
        get_user_timezone st := by
  constructor
  · simp [set_user_timezone, hinvalid]
  · simp [set_user_timezone, hinvalid]

theorem set_user_timezone_invalid_noop_witness :
    ((fun tz => tz == "UTC") "Not/AZone" = false) ∧
      set_user_timezone (fun tz => tz == "UTC") "t0" "u1" "Not/AZone"
          (.record { timezone := some "Europe/London" }) =
        (false, .record { timezone := some "Europe/London" }) ∧
      get_user_timezone
          (set_user_timezone (fun tz => tz == "UTC") "t0" "u1" "Not/AZone"
            (.record { timezone := some "Europe/London" })).2 =
        get_user_timezone (.record { timezone := some "Europe/London" }) := by
  have h := set_user_timezone_invalid_noop (fun tz => tz == "UTC") "t0" "u1"
    "Not/AZone" (.record { timezone := some "Europe/London" }) (by decide)
  exact ⟨by decide, h.1, h.2⟩

/-! ## Email mapping store (`UserAuthManager`, user_auth.py lines 1627-1908)

One JSON mapping record per user: `primary_email`, `owned_emails`,
`email_to_token_mapping` (the record's `user_id`/`created_at`/`updated_at`
audit fields do not interact with these operations' logic and are not
modelled).  Each mutator below is the read-modify-write body of the
corresponding Python method, with the final `save_user_email_mapping` write
modelled as succeeding. -/

structure EmailMapping where
  primary_email : Option String := none
  owned_emails : List String := []
  email_to_token_mapping : List (String × String) := []
  deriving DecidableEq, Repr

/-- Python truthiness of `mapping.get('primary_email')`: `None` and the
empty string are falsy. -/
def pyFalsyStr : Option String → Bool
  | none => true
  | some s => s == ""

/-- Python dict assignment `d[k] = v`: overwrite in place if the key exists,
else append. -/
def dictInsert (l : List (String × String)) (k v : String) :
    List (String × String) :=
  if (l.lookup k).isSome then
    l.map (fun kv => if kv.1 == k then (k, v) else kv)
  else l ++ [(k, v)]

/-- Invariant of §3 of the spec: `primary_email`, if set, is an owned
email. -/
def mappingInvariant (m : EmailMapping) : Prop :=
  ∀ p, m.primary_email = some p → p ∈ m.owned_emails

/-- `UserAuthManager.set_primary_email_for_user` (user_auth.py lines
1833-1852): refuse (returning `False`, writing nothing) unless the email is
owned. -/
def set_primary_email_for_user (m : EmailMapping) (email : String) :
    Bool × EmailMapping :=
  if email ∈ m.owned_emails then (true, { m with primary_email := some email })
  else (false, m)

/-- `UserAuthManager.add_email_to_user` (user_auth.py lines 1854-1879):
append the email if new, record its token file, and promote it to primary if
no (truthy) primary is set. -/
def add_email_to_user (m : EmailMapping) (email token_file_path : String) :
    Bool × EmailMapping :=
  let owned := if email ∈ m.owned_emails then m.owned_emails
    else m.owned_emails ++ [email]
  let tokens := dictInsert m.email_to_token_mapping email token_file_path
  let primary := if pyFalsyStr m.primary_email then some email
    else m.primary_email
  (true, ⟨primary, owned, tokens⟩)

/-- `UserAuthManager.remove_email_from_user` (user_auth.py lines 1881-1908):
drop the email's first occurrence (`list.remove` under an `in` guard) and its
token entry; if it was primary, fall back to the first remaining owned email
or `None`. -/
def remove_email_from_user (m : EmailMapping) (email : String) :
    Bool × EmailMapping :=
  let owned := m.owned_emails.erase email
  let tokens := m.email_to_token_mapping.filter (fun kv => kv.1 ≠ email)
  let primary := if m.primary_email = some email then owned.head?
    else m.primary_email
  (true, ⟨primary, owned, tokens⟩)

/-- C7: every email-mapping mutation preserves the `primary ∈ owned`
invariant from any state satisfying it; `set_primary_email_for_user` fails on
a non-owned email, and removing the last owned email clears the primary. -/
theorem email_mapping_invariant_preserved (m : EmailMapping)
    (email token_file_path : String) (hinv : mappingInvariant m) :
    mappingInvariant (set_primary_email_for_user m email).2 ∧
      mappingInvariant (add_email_to_user m email token_file_path).2 ∧
      mappingInvariant (remove_email_from_user m email).2 ∧
      (email ∉ m.owned_emails → set_primary_email_for_user m email = (false, m)) ∧
      (m.owned_emails = [email] →
        (remove_email_from_user m email).2.primary_email = none) := by
  refine ⟨?_, ?_, ?_, ?_, ?_⟩
  · intro p hp
    simp only [set_primary_email_for_user] at hp ⊢
    split at hp <;> split
    · next hmem _ =>
        simp only [Option.some_inj] at hp
        subst hp
        simpa using hmem
    · next hmem hmem2 => exact absurd hmem hmem2
    · next hmem hmem2 => exact absurd hmem2 hmem
    · exact hinv p hp
  · intro p hp
    simp only [add_email_to_user] at hp ⊢
    split at hp
    · simp only [Option.some_inj] at hp
      subst hp
      split
      · assumption
      · simp
    · have hpm := hinv p hp
      split
      · exact hpm
      · exact List.mem_append_left _ hpm
  · intro p hp
    simp only [remove_email_from_user] at hp ⊢
    split at hp
    · exact List.mem_of_mem_head? hp
    · next hne =>
        have hpm := hinv p hp
        have hpe : p ≠ email := fun he => hne (by rw [← he, hp])
        exact (List.mem_erase_of_ne hpe).mpr hpm
  · intro hnot
    simp [set_primary_email_for_user, hnot]
  · intro hlast
    simp only [remove_email_from_user, hlast]
    rcases hpm : m.primary_email with _ | p
    · simp [hpm]
    · have : p ∈ m.owned_emails := hinv p hpm
      rw [hlast] at this
      simp only [List.mem_singleton] at this
      subst this
      simp [hpm]

/-- A concrete mapping satisfying the invariant. -/
def exampleMapping : EmailMapping :=
  { primary_email := some "a@x", owned_emails := ["a@x", "b@x"], email_to_token_mapping := [("a@x", "t1")] }

theorem email_mapping_invariant_preserved_witness :
    mappingInvariant exampleMapping ∧
      (mappingInvariant (set_primary_email_for_user exampleMapping "b@x").2 ∧
        mappingInvariant (add_email_to_user exampleMapping "b@x" "t2").2 ∧
        mappingInvariant (remove_email_from_user exampleMapping "b@x").2 ∧
        ("b@x" ∉ exampleMapping.owned_emails →
          set_primary_email_for_user exampleMapping "b@x" =
            (false, exampleMapping)) ∧
        (exampleMapping.owned_emails = ["b@x"] →
          (remove_email_from_user exampleMapping "b@x").2.primary_email =
            none)) := by
  have hinv : mappingInvariant exampleMapping := by
    intro p hp
    simp only [exampleMapping] at hp ⊢
    simp only [Option.some_inj] at hp
    subst hp
    decide
  exact ⟨hinv,
    email_mapping_invariant_preserved exampleMapping "b@x" "t2" hinv⟩

/-! ## Self-calendar resolution in `run_with_context` (calendar.py 894-919) -/

/-- One entry of the Google `calendarList` response, as read by the fallback
code: `id`, the `primary` flag, and `accessRole`. -/
structure CalendarListEntry where
  id : String
  primary : Bool
  accessRole : String
  deriving DecidableEq, Repr

/-- `UserAuthManager.get_user_self_calendars_for_email` (user_auth.py lines
1963-1987): resolve the owning user (`none` for an unconnected email gives
`[]`), then keep the selected calendars whose id equals or starts with the
email. -/
def get_user_self_calendars_for_email (find_user_id_for_email : String → Option String)
    (get_user_selected_calendars : String → List String) (email : String) :
    List String :=
  match find_user_id_for_email email with
  | none => []
  | some user_id =>
      (get_user_selected_calendars user_id).filter
        (fun cal_id => cal_id == email || cal_id.startsWith email)

/-- The calendar-resolution step of `CheckAvailabilityTool.run_with_context`
(calendar.py lines 894-919): when the email has no self calendars, fetch the
account's calendar list and use the calendar marked primary; with no primary
calendar the check fails with a structured `'No calendars available'` error
(`success=False`), which the embedding renders as `.error`. -/
def resolveAvailabilityCalendars (email : String)
    (self_calendar_ids : List String)
    (all_calendars : List CalendarListEntry) : Except String (List String) :=
  if self_calendar_ids.isEmpty then
    match all_calendars.find? (fun cal => cal.primary) with
    | some primary_calendar => .ok [primary_calendar.id]
    | none => .error ("No calendars available for email " ++ email)
  else .ok self_calendar_ids

/-- Modelled from the spec (§4.1): the claimed fallback priority list — the
calendar marked primary, else the first calendar with owner-level access,
else empty. -/
def resolveSelfCalendars_spec (self_calendar_ids : List String)
    (all_calendars : List CalendarListEntry) : List String :=
  if self_calendar_ids.isEmpty then
    match all_calendars.find? (fun cal => cal.primary) with
    | some cal => [cal.id]
    | none =>
        match all_calendars.find? (fun cal => cal.accessRole == "owner") with
        | some cal => [cal.id]
        | none => []
  else self_calendar_ids

/-- C8 (amended): with no explicit selection the availability path falls back
to the calendar marked primary only; when no primary calendar exists it fails
with a structured `'No calendars available'` error — never an owner-level
fallback and never silently-open availability.  An explicit selection is used
as is. -/
theorem resolve_self_calendars_fallback (email : String)
    (self_calendar_ids : List String)
    (all_calendars : List CalendarListEntry) :
    (self_calendar_ids ≠ [] →
        resolveAvailabilityCalendars email self_calendar_ids all_calendars =
          .ok self_calendar_ids) ∧
      (∀ cal, self_calendar_ids = [] →
        all_calendars.find? (fun cal => cal.primary) = some cal →
        resolveAvailabilityCalendars email self_calendar_ids all_calendars =
          .ok [cal.id]) ∧
      (self_calendar_ids = [] →
        all_calendars.find? (fun cal => cal.primary) = none →
        resolveAvailabilityCalendars email self_calendar_ids all_calendars =
          .error ("No calendars available for email " ++ email)) := by
  refine ⟨fun hne => ?_, fun cal he hp => ?_, fun he hp => ?_⟩
  · rw [resolveAvailabilityCalendars, if_neg (by simpa using hne)]
  · subst he
    simp [resolveAvailabilityCalendars, hp]
  · subst he
    simp [resolveAvailabilityCalendars, hp]

theorem resolve_self_calendars_fallback_witness :
    (([] : List String) = []) ∧
      (([⟨"me@x", true, "owner"⟩, ⟨"team@x", false, "reader"⟩] :
          List CalendarListEntry).find? (fun cal => cal.primary) =
        some ⟨"me@x", true, "owner"⟩) ∧
      resolveAvailabilityCalendars "me@x" []
          [⟨"me@x", true, "owner"⟩, ⟨"team@x", false, "reader"⟩] =
        .ok ["me@x"] :=
  ⟨rfl, by decide,
    (resolve_self_calendars_fallback "me@x" []
        [⟨"me@x", true, "owner"⟩, ⟨"team@x", false, "reader"⟩]).2.1
      ⟨"me@x", true, "owner"⟩ rfl (by decide)⟩

/-- C8 counterexample: a calendar list with an owner-access calendar but no
primary calendar — the claimed fallback would use `cal1`, the code fails the
check instead. -/
theorem resolve_self_calendars_no_owner_fallback :
    resolveAvailabilityCalendars "x@y" [] [⟨"cal1", false, "owner"⟩] =
        .error "No calendars available for email x@y" ∧
      resolveSelfCalendars_spec [] [⟨"cal1", false, "owner"⟩] = ["cal1"] ∧
      (Except.error "No calendars available for email x@y" :
          Except String (List String)) ≠ .ok ["cal1"] := by
  refine ⟨rfl, rfl, fun h => ?_⟩
  exact Except.noConfusion h

/-! ## Busy-interval aggregation in `run_with_context` (calendar.py 924-1040) -/

/-- A raw Google event as the aggregation loop reads it:
`event.get('start', {}).get('dateTime')` and the matching end (absent for
all-day events), plus `event.get('summary')`.  Event instants are carried as
absolute times; the display-timezone rendering applied at line 949 preserves
the instant (see `timezone_round_trip`). -/
structure RawEvent where
  start : Option Int
  «end» : Option Int
  summary : Option String
  deriving DecidableEq, Repr

/-- Outcome of one per-calendar `events().list().execute()` call: the events,
or a raised transport error. -/
inductive CalendarQueryResult where
  | ok (events : List RawEvent)
  | error (msg : String)
  deriving DecidableEq, Repr

/-- The `for calendar_id in self_calendar_ids` loop of `run_with_context`
(calendar.py lines 924-966): a failing query is logged and skipped
(`continue`); events lacking either endpoint are ignored; the rest append
busy entries to the accumulator. -/
def collectBusyTimes (query : String → CalendarQueryResult) :
    List String → List BusyTime → List BusyTime
  | [], all_busy_times => all_busy_times
  | calendar_id :: rest, all_busy_times =>
      match query calendar_id with
      | .error _ => collectBusyTimes query rest all_busy_times
      | .ok events =>
          collectBusyTimes query rest
            (all_busy_times ++ events.filterMap (fun event =>
              match event.start, event.«end» with
              | some s, some e =>
                  some ⟨s, e, event.summary.getD "Busy", calendar_id⟩
              | _, _ => none))

/-- The fields of the `run_with_context` success result relevant here
(calendar.py lines 1021-1040). -/
structure CheckAvailabilityResult where
  success : Bool
  free_slots : List FreeSlot
  busy_times : List BusyTime
  calendars_checked : Nat
  deriving DecidableEq, Repr

/-- Lines 924-1040 of `run_with_context`, from busy-time collection to the
result dict: collect per-calendar busy times, sort them by start (line 969),
synthesize free slots inside the working window, and report
`calendars_checked = len(self_calendar_ids)`. -/
def checkAvailabilityCore (query : String → CalendarQueryResult)
    (self_calendar_ids : List String) (start_time end_time : Int)
    (duration_minutes max_suggestions : Int) : CheckAvailabilityResult :=
  let busy_times := List.insertionSort (fun a b => a.start ≤ b.start)
    (collectBusyTimes query self_calendar_ids [])
  { success := true,
    free_slots := _find_free_slots start_time end_time duration_minutes
      busy_times max_suggestions,
    busy_times := busy_times,
    calendars_checked := self_calendar_ids.length }

theorem collectBusyTimes_mono (query : String → CalendarQueryResult) :
    ∀ (calIds : List String) (acc : List BusyTime) (b : BusyTime),
      b ∈ acc → b ∈ collectBusyTimes query calIds acc := by
  intro calIds
  induction calIds with
  | nil => intro acc b hb; exact hb
  | cons cal rest ih =>
      intro acc b hb
      simp only [collectBusyTimes]
      cases hq : query cal with
      | error msg => exact ih acc b hb
      | ok events => exact ih _ b (List.mem_append_left _ hb)

theorem collectBusyTimes_sound (query : String → CalendarQueryResult) :
    ∀ (calIds : List String) (acc : List BusyTime) (b : BusyTime),
      b ∈ collectBusyTimes query calIds acc →
      b ∈ acc ∨ ∃ cal, cal ∈ calIds ∧ ∃ evs, query cal = .ok evs ∧
        ∃ ev, ev ∈ evs ∧ ev.start = some b.start ∧ ev.«end» = some b.«end» ∧
          b.calendar = cal := by
  intro calIds
  induction calIds with
  | nil => intro acc b hb; exact Or.inl hb
  | cons cal rest ih =>
      intro acc b hb
      simp only [collectBusyTimes] at hb
      cases hq : query cal with
      | error msg =>
          rw [hq] at hb
          rcases ih _ b hb with h | ⟨c, hc, hrest⟩
          · exact Or.inl h
          · exact Or.inr ⟨c, List.mem_cons_of_mem _ hc, hrest⟩
      | ok evs =>
          rw [hq] at hb
          rcases ih _ b hb with h | ⟨c, hc, hrest⟩
          · rcases List.mem_append.mp h with h | h
            · exact Or.inl h
            · rcases List.mem_filterMap.mp h with ⟨ev, hev, hsome⟩
              rcases hs : ev.start with _ | s
              · rw [hs] at hsome; simp at hsome
              · rcases he : ev.«end» with _ | e
                · rw [hs, he] at hsome; simp at hsome
                · rw [hs, he] at hsome
                  simp only [Option.some_inj] at hsome
                  subst hsome
                  exact Or.inr ⟨cal, List.mem_cons_self _ _,
                    evs, hq, ev, hev, by simp [hs], by simp [he], rfl⟩
          · exact Or.inr ⟨c, List.mem_cons_of_mem _ hc, hrest⟩

theorem collectBusyTimes_complete (query : String → CalendarQueryResult) :
    ∀ (calIds : List String) (acc : List BusyTime) (cal : String)
      (evs : List RawEvent) (ev : RawEvent) (s e : Int),
      cal ∈ calIds → query cal = .ok evs → ev ∈ evs →
      ev.start = some s → ev.«end» = some e →
      (⟨s, e, ev.summary.getD "Busy", cal⟩ : BusyTime) ∈
        collectBusyTimes query calIds acc := by
  intro calIds
  induction calIds with
  | nil => intro _ _ _ _ _ _ h; simp at h
  | cons c rest ih =>
      intro acc cal evs ev s e hcal hq hev hs he
      simp only [collectBusyTimes]
      rcases List.mem_cons.mp hcal with hcc | hcc
      · subst hcc
        rw [hq]
        apply collectBusyTimes_mono
        apply List.mem_append_right
        exact List.mem_filterMap.mpr ⟨ev, hev, by rw [hs, he]⟩
      · cases hqc : query c with
        | error msg => exact ih acc cal evs ev s e hcc hq hev hs he
        | ok evs2 => exact ih _ cal evs ev s e hcc hq hev hs he

/-- C1 (amended/partial confirmation): when some per-calendar queries raise
and others succeed, the result still has `success=True` and its busy times
are exactly the fully-timed events of the succeeding calendars (the failed
calendar contributes nothing) — but `calendars_checked` is
`len(self_calendar_ids)`, the total including failed calendars, not a reduced
count. -/
theorem check_availability_partial_failure
    (query : String → CalendarQueryResult) (self_calendar_ids : List String)
    (start_time end_time duration_minutes max_suggestions : Int) :
    (checkAvailabilityCore query self_calendar_ids start_time end_time
        duration_minutes max_suggestions).success = true ∧
      (checkAvailabilityCore query self_calendar_ids start_time end_time
          duration_minutes max_suggestions).calendars_checked =
        self_calendar_ids.length ∧
      (∀ b ∈ (checkAvailabilityCore query self_calendar_ids start_time end_time
          duration_minutes max_suggestions).busy_times,
        ∃ cal, cal ∈ self_calendar_ids ∧ ∃ evs, query cal = .ok evs ∧
          ∃ ev, ev ∈ evs ∧ ev.start = some b.start ∧
            ev.«end» = some b.«end» ∧ b.calendar = cal) ∧
      (∀ cal, cal ∈ self_calendar_ids → ∀ evs, query cal = .ok evs →
        ∀ ev, ev ∈ evs → ∀ s e, ev.start = some s → ev.«end» = some e →
          (⟨s, e, ev.summary.getD "Busy", cal⟩ : BusyTime) ∈
            (checkAvailabilityCore query self_calendar_ids start_time end_time
              duration_minutes max_suggestions).busy_times) := by
  refine ⟨rfl, rfl, ?_, ?_⟩
  · intro b hb
    simp only [checkAvailabilityCore] at hb
    have hb2 : b ∈ collectBusyTimes query self_calendar_ids [] :=
      (List.perm_insertionSort _ _).mem_iff.mp hb
    rcases collectBusyTimes_sound query self_calendar_ids [] b hb2 with h | h
    · simp at h
    · exact h
  · intro cal hcal evs hq ev hev s e hs he
    simp only [checkAvailabilityCore]
    exact (List.perm_insertionSort _ _).mem_iff.mpr
      (collectBusyTimes_complete query self_calendar_ids [] cal evs ev s e
        hcal hq hev hs he)

/-- Scenario E inputs: calendar A's query raises, calendar B succeeds with
one fully-timed event. -/
def exampleQuery : String → CalendarQueryResult :=
  fun calendar_id => if calendar_id == "calA" then .error "transport failure"
    else .ok [⟨some 720, some 780, some "Standup"⟩]

theorem check_availability_partial_failure_witness :
    ((⟨720, 780, "Standup", "calB"⟩ : BusyTime) ∈
        (checkAvailabilityCore exampleQuery ["calA", "calB"]
          540 1020 60 10).busy_times) ∧
      ∃ cal, cal ∈ ["calA", "calB"] ∧
        ∃ evs, exampleQuery cal = .ok evs ∧
          ∃ ev, ev ∈ evs ∧ ev.start = some (720 : Int) ∧
            ev.«end» = some (780 : Int) ∧
            (⟨720, 780, "Standup", "calB"⟩ : BusyTime).calendar = cal :=
  ⟨by decide,
    (check_availability_partial_failure exampleQuery ["calA", "calB"]
        540 1020 60 10).2.2.1 ⟨720, 780, "Standup", "calB"⟩ (by decide)⟩

/-- C1 counterexample: with calendar A failing and calendar B succeeding with
one event, the result keeps `success=True` and only B's interval, but
`calendars_checked` is 2 (the total), not the claimed reduced count 1. -/
theorem check_availability_calendars_checked_not_reduced :
    (checkAvailabilityCore exampleQuery ["calA", "calB"]
        540 1020 60 10).success = true ∧
      (checkAvailabilityCore exampleQuery ["calA", "calB"]
          540 1020 60 10).busy_times = [⟨720, 780, "Standup", "calB"⟩] ∧
      (checkAvailabilityCore exampleQuery ["calA", "calB"]
          540 1020 60 10).calendars_checked = 2 ∧
      (checkAvailabilityCore exampleQuery ["calA", "calB"]
          540 1020 60 10).calendars_checked ≠ 1 := by
  refine ⟨rfl, by decide, rfl, by decide⟩

end Eva
